import Mathlib

/-!
Verification of the `env` Go package (github.com/kr/env): typed lookup of
environment variables.  The direct-lookup functions `Int`, `Duration`,
`Time`, `URL` and `String` from `env.go` are embedded shallowly below, each
returning a `Result` that records the three possible outcomes of a call:
a normal return, `log.Println(name, err)` followed by `os.Exit(1)`, or a
`panic`.  The standard-library parsers `time.ParseDuration`, `time.Parse`
and `url.Parse` are abstract parameters; `strconv.Atoi` is modelled
concretely (64-bit `int`, as on Go's mainstream platforms).
-/

/-- The process environment: a map from variable names to values, `none`
meaning the variable is absent. -/
abbrev Env : Type := String → Option String

/-- Model of Go `os.Getenv`: returns the value, or the empty string when the
variable is absent. -/
def getenv (E : Env) (name : String) : String :=
  (E name).getD ""

/-- One diagnostic line as produced by `log.Println(name, err)`: it carries
the variable name and the underlying parse error. -/
structure Diag where
  name : String
  err : String
deriving DecidableEq, Repr

/-- Outcome of a call: normal return, process exit after emitting a list of
diagnostic lines (`os.Exit` with the given status), or a Go `panic`. -/
inductive Result (α : Type) where
  | ok : α → Result α
  | exited : List Diag → Nat → Result α
  | panicked : String → Result α
deriving DecidableEq, Repr

/-- Go aliases, used inside the `env` namespace where the package shadows the
builtin names. -/
abbrev GoString : Type := String

/-- Go `int`, modelled as an unbounded integer; the 64-bit range check of
`strconv.Atoi` is explicit in `goAtoi`. -/
abbrev GoInt : Type := Int

/-- Go `time.Duration`, an `int64` count of nanoseconds. -/
abbrev GoDuration : Type := Int

/-- Numeric value of a list of decimal digit characters. -/
def digitsVal (ds : List Char) : Nat :=
  ds.foldl (fun acc c => acc * 10 + (c.toNat - 48)) 0

/-- Model of Go `strconv.Atoi` = `strconv.ParseInt(s, 10, 0)` on a 64-bit
platform: an optional leading sign followed by at least one decimal digit,
rejected with `ErrSyntax` otherwise, and with `ErrRange` when the value does
not fit in a signed 64-bit integer. -/
def goAtoi (s : String) : Except String Int :=
  match s.data with
  | [] => .error "invalid syntax"
  | c :: cs =>
    let ds := if c = '+' ∨ c = '-' then cs else c :: cs
    if ds = [] then .error "invalid syntax"
    else if ds.all Char.isDigit then
      let k : Int := if c = '-' then -(digitsVal ds : Int) else (digitsVal ds : Int)
      if -(2 ^ 63) ≤ k ∧ k ≤ 2 ^ 63 - 1 then .ok k
      else .error "value out of range"
    else .error "invalid syntax"

/-- `env.Int`: if the variable is set and non-empty, parse it with
`strconv.Atoi`, exiting with status 1 after one diagnostic on error;
otherwise return the caller's default. -/
def env.Int (E : Env) (name : GoString) (value : GoInt) : Result GoInt :=
  let s := getenv E name
  if s ≠ "" then
    match goAtoi s with
    | .ok n => .ok n
    | .error e => .exited [⟨name, e⟩] 1
  else .ok value

/-- `env.Duration`: same control flow as `env.Int`, with `time.ParseDuration`
(abstract parameter `pd`) in place of `strconv.Atoi`. -/
def env.Duration (E : Env) (pd : GoString → Except GoString GoDuration)
    (name : GoString) (value : GoDuration) : Result GoDuration :=
  let s := getenv E name
  if s ≠ "" then
    match pd s with
    | .ok d => .ok d
    | .error e => .exited [⟨name, e⟩] 1
  else .ok value

/-- `env.Time`: first parses the default `value` against `format` with
`time.Parse` (abstract parameter `pt`), panicking on error; then, if the
variable is set and non-empty, parses it with the same format, exiting with
status 1 after one diagnostic on error. -/
def env.Time {T : Type} (E : Env) (pt : GoString → GoString → Except GoString T)
    (name format value : GoString) : Result T :=
  match pt format value with
  | .error e => .panicked e
  | .ok v =>
    let s := getenv E name
    if s ≠ "" then
      match pt format s with
      | .ok v2 => .ok v2
      | .error e => .exited [⟨name, e⟩] 1
    else .ok v

/-- `env.URL`: same structure as `env.Time` with `url.Parse` (abstract
parameter `pu`).  The Go function returns a pointer `*url.URL`, modelled as
`Option U` with `none` for `nil`; `url.Parse` returns a pointer and an
error, so `pu` returns `Except` of `Option U`. -/
def env.URL {U : Type} (E : Env) (pu : GoString → Except GoString (Option U))
    (name value : GoString) : Result (Option U) :=
  match pu value with
  | .error e => .panicked e
  | .ok v =>
    let s := getenv E name
    if s ≠ "" then
      match pu s with
      | .ok v2 => .ok v2
      | .error e => .exited [⟨name, e⟩] 1
    else .ok v

/-- `env.String`: return the variable's value if set and non-empty, otherwise
the caller's default; no parsing, no failure. -/
def env.String (E : Env) (name value : GoString) : Result GoString :=
  let s := getenv E name
  if s ≠ "" then .ok s else .ok value

/-- Characterisation of the strings `strconv.Atoi` accepts syntactically, as
the spec words it: an optional leading `+` or `-` followed by at least one
decimal digit, mapped to the signed integer value (unbounded; the range
restriction is stated separately). -/
def signedDecimal (s : String) : Option Int :=
  match s.data with
  | [] => none
  | c :: cs =>
    if c = '+' ∨ c = '-' then
      if cs ≠ [] ∧ cs.all Char.isDigit then
        some (if c = '-' then -(digitsVal cs : Int) else (digitsVal cs : Int))
      else none
    else
      if (c :: cs).all Char.isDigit then some (digitsVal (c :: cs) : Int)
      else none

/-- State-passing variant of `env.Int`, threading the whole mutable process
state visible to the package (the environment).  Translated from the same
source: the body performs a single `os.Getenv` read and no write, so every
branch returns the state it received. -/
def env.IntS (σ : Env) (name : GoString) (value : GoInt) : Result GoInt × Env :=
  let s := getenv σ name
  if s ≠ "" then
    match goAtoi s with
    | .ok n => (.ok n, σ)
    | .error e => (.exited [⟨name, e⟩] 1, σ)
  else (.ok value, σ)

/-- State-passing variant of `env.Duration`; see `env.IntS`. -/
def env.DurationS (σ : Env) (pd : GoString → Except GoString GoDuration)
    (name : GoString) (value : GoDuration) : Result GoDuration × Env :=
  let s := getenv σ name
  if s ≠ "" then
    match pd s with
    | .ok d => (.ok d, σ)
    | .error e => (.exited [⟨name, e⟩] 1, σ)
  else (.ok value, σ)

/-- State-passing variant of `env.Time`; see `env.IntS`. -/
def env.TimeS {T : Type} (σ : Env) (pt : GoString → GoString → Except GoString T)
    (name format value : GoString) : Result T × Env :=
  match pt format value with
  | .error e => (.panicked e, σ)
  | .ok v =>
    let s := getenv σ name
    if s ≠ "" then
      match pt format s with
      | .ok v2 => (.ok v2, σ)
      | .error e => (.exited [⟨name, e⟩] 1, σ)
    else (.ok v, σ)

/-- State-passing variant of `env.URL`; see `env.IntS`. -/
def env.URLS {U : Type} (σ : Env) (pu : GoString → Except GoString (Option U))
    (name value : GoString) : Result (Option U) × Env :=
  match pu value with
  | .error e => (.panicked e, σ)
  | .ok v =>
    let s := getenv σ name
    if s ≠ "" then
      match pu s with
      | .ok v2 => (.ok v2, σ)
      | .error e => (.exited [⟨name, e⟩] 1, σ)
    else (.ok v, σ)

/-- State-passing variant of `env.String`; see `env.IntS`. -/
def env.StringS (σ : Env) (name value : GoString) : Result GoString × Env :=
  let s := getenv σ name
  if s ≠ "" then (.ok s, σ) else (.ok value, σ)

/-- Modelled from the spec: the deferred-registration component (registration
functions and `Parse`) is described by the spec but its source is not under
`src/`.  A registration records the variable name, the destination cell's
type and the caller-supplied default; the spec names `Int` and `String`
registrations. -/
inductive Reg where
  | intReg (name : String) (default : Int)
  | strReg (name : String) (default : String)
deriving DecidableEq, Repr

/-- Modelled from the spec: the value held by a destination cell. -/
inductive CellVal where
  | intVal (v : Int)
  | strVal (s : String)
deriving DecidableEq, Repr

/-- Modelled from the spec: running one resolver yields the cell's new value
and, when the environment value is present but unparsable, one diagnostic.
An `Int` resolver parses a present non-empty value with `strconv.Atoi`,
leaving the cell at its default and logging on error; a `String` resolver
copies any non-empty value verbatim and cannot fail. -/
def runResolver (E : Env) : Reg → CellVal × Option Diag
  | .intReg name d =>
    let s := getenv E name
    if s ≠ "" then
      match goAtoi s with
      | .ok n => (.intVal n, none)
      | .error e => (.intVal d, some ⟨name, e⟩)
    else (.intVal d, none)
  | .strReg name d =>
    let s := getenv E name
    if s ≠ "" then (.strVal s, none) else (.strVal d, none)

/-- Modelled from the spec: the value a destination cell holds after `Parse`
— the parsed environment value when present and valid, the unchanged default
otherwise. -/
def resolveCell (E : Env) : Reg → CellVal
  | .intReg name d =>
    let s := getenv E name
    if s ≠ "" then
      match goAtoi s with
      | .ok n => .intVal n
      | .error _ => .intVal d
    else .intVal d
  | .strReg name d =>
    let s := getenv E name
    if s ≠ "" then .strVal s else .strVal d

/-- Modelled from the spec: a registration has an invalid environment value
when the variable is present, non-empty and fails to parse for the target
type (`String` registrations never fail). -/
def regInvalid (E : Env) : Reg → Bool
  | .intReg name _ =>
    let s := getenv E name
    if s ≠ "" then
      match goAtoi s with
      | .ok _ => false
      | .error _ => true
    else false
  | .strReg _ _ => false

/-- Modelled from the spec: the destination cells after `Parse` has invoked
every resolver, in registration order, with no short-circuiting. -/
def ParseCells (E : Env) (regs : List Reg) : List CellVal :=
  (regs.map (runResolver E)).map Prod.fst

/-- Modelled from the spec: the diagnostic lines emitted during `Parse`, in
registration order. -/
def ParseDiags (E : Env) (regs : List Reg) : List Diag :=
  (regs.map (runResolver E)).filterMap Prod.snd

/-- Modelled from the spec: `Parse` invokes every resolver once in
registration order, then exits with status 1 if any resolver signalled
failure, and otherwise returns normally with every cell resolved. -/
def env.Parse (E : Env) (regs : List Reg) : Result (List CellVal) :=
  let diags := ParseDiags E regs
  if diags = [] then .ok (ParseCells E regs) else .exited diags 1

/-! ## Helper lemmas -/

theorem getenv_of_absent_or_empty (E : Env) (name : String)
    (h : E name = none ∨ E name = some "") : getenv E name = "" := by
  cases h <;> simp [getenv, *]

/-! ## Claims -/

/-- C1: for every variable name that is absent from the environment or set to
the empty string, each direct-lookup function returns the caller-supplied
default — `Int`, `Duration` and `String` return it directly, `Time` and `URL`
return the result of parsing the supplied default string — and the absent and
empty-string cases are indistinguishable (one hypothesis covers both). -/
theorem c1_absent_or_empty_gives_default (E : Env) (name : String)
    (h : E name = none ∨ E name = some "") :
    (∀ v : GoInt, env.Int E name v = .ok v)
    ∧ (∀ (pd : String → Except String GoDuration) (v : GoDuration),
        env.Duration E pd name v = .ok v)
    ∧ (∀ v : String, env.String E name v = .ok v)
    ∧ (∀ (T : Type) (pt : String → String → Except String T)
        (format value : String) (v : T),
        pt format value = .ok v → env.Time E pt name format value = .ok v)
    ∧ (∀ (U : Type) (pu : String → Except String (Option U))
        (value : String) (u : Option U),
        pu value = .ok u → env.URL E pu name value = .ok u) := by
  have hg : getenv E name = "" := getenv_of_absent_or_empty E name h
  refine ⟨?_, ?_, ?_, ?_, ?_⟩
  · intro v; simp [env.Int, hg]
  · intro pd v; simp [env.Duration, hg]
  · intro v; simp [env.String, hg]
  · intro T pt format value v hv; simp [env.Time, hv, hg]
  · intro U pu value u hu; simp [env.URL, hu, hg]

/-- Witness for C1 at a concrete empty environment. -/
theorem c1_witness :
    env.Int (fun _ => none) "PORT" 8080 = .ok 8080
    ∧ env.Time (fun _ => none) (fun _ v => Except.ok v.length) "T" "fmt" "dflt"
        = .ok 4 := by
  refine ⟨(c1_absent_or_empty_gives_default (fun _ => none) "PORT" (Or.inl rfl)).1 8080, ?_⟩
  exact (c1_absent_or_empty_gives_default (fun _ => none) "T" (Or.inl rfl)).2.2.2.1
    Nat (fun _ v => Except.ok v.length) "fmt" "dflt" 4 rfl

/-- C2: for every variable set to a non-empty value that the target type's
standard parser accepts, the direct-lookup function returns exactly the
parser's result: `Int` returns `strconv.Atoi(s)`, `Duration` returns
`time.ParseDuration(s)`, `Time` returns `time.Parse(format, s)` and `URL`
returns `url.Parse(s)`. -/
theorem c2_valid_value_gives_parsed (E : Env) (name s : String)
    (hs : getenv E name = s) (hne : s ≠ "") :
    (∀ (n v : GoInt), goAtoi s = .ok n → env.Int E name v = .ok n)
    ∧ (∀ (pd : String → Except String GoDuration) (d v : GoDuration),
        pd s = .ok d → env.Duration E pd name v = .ok d)
    ∧ (∀ (T : Type) (pt : String → String → Except String T)
        (format value : String) (v0 v : T),
        pt format value = .ok v0 → pt format s = .ok v →
        env.Time E pt name format value = .ok v)
    ∧ (∀ (U : Type) (pu : String → Except String (Option U))
        (value : String) (u0 u : Option U),
        pu value = .ok u0 → pu s = .ok u → env.URL E pu name value = .ok u) := by
  refine ⟨?_, ?_, ?_, ?_⟩
  · intro n v hn; simp [env.Int, hs, hne, hn]
  · intro pd d v hd; simp [env.Duration, hs, hne, hd]
  · intro T pt format value v0 v h0 hv; simp [env.Time, h0, hs, hne, hv]
  · intro U pu value u0 u h0 hu; simp [env.URL, h0, hs, hne, hu]

/-- Witness for C2: `PORT="9090"` makes `Int("PORT", 8080)` return 9090. -/
theorem c2_witness :
    env.Int (fun n => if n = "PORT" then some "9090" else none) "PORT" 8080
      = .ok 9090 :=
  (c2_valid_value_gives_parsed (fun n => if n = "PORT" then some "9090" else none)
    "PORT" "9090" rfl (by decide)).1 9090 8080 rfl

/-- C3: for every variable set to a non-empty value that fails to parse, the
direct-lookup function (`Int`, `Duration`, and the environment-value path of
`Time` and `URL`) emits exactly one diagnostic carrying the variable name and
the underlying error and exits the process with status 1; the call does not
return normally. -/
theorem c3_invalid_value_logs_and_exits (E : Env) (name s : String)
    (hs : getenv E name = s) (hne : s ≠ "") :
    (∀ (e : String) (v : GoInt), goAtoi s = .error e →
        env.Int E name v = .exited [⟨name, e⟩] 1)
    ∧ (∀ (pd : String → Except String GoDuration) (e : String) (v : GoDuration),
        pd s = .error e → env.Duration E pd name v = .exited [⟨name, e⟩] 1)
    ∧ (∀ (T : Type) (pt : String → String → Except String T)
        (format value : String) (v0 : T) (e : String),
        pt format value = .ok v0 → pt format s = .error e →
        env.Time E pt name format value = .exited [⟨name, e⟩] 1)
    ∧ (∀ (U : Type) (pu : String → Except String (Option U))
        (value : String) (u0 : Option U) (e : String),
        pu value = .ok u0 → pu s = .error e →
        env.URL E pu name value = .exited [⟨name, e⟩] 1) := by
  refine ⟨?_, ?_, ?_, ?_⟩
  · intro e v he; simp [env.Int, hs, hne, he]
  · intro pd e v he; simp [env.Duration, hs, hne, he]
  · intro T pt format value v0 e h0 he; simp [env.Time, h0, hs, hne, he]
  · intro U pu value u0 e h0 he; simp [env.URL, h0, hs, hne, he]

/-- Witness for C3: `PORT="abc"` makes `Int("PORT", 8080)` log `PORT` with a
syntax error and exit with status 1. -/
theorem c3_witness :
    env.Int (fun n => if n = "PORT" then some "abc" else none) "PORT" 8080
      = .exited [⟨"PORT", "invalid syntax"⟩] 1 :=
  (c3_invalid_value_logs_and_exits (fun n => if n = "PORT" then some "abc" else none)
    "PORT" "abc" rfl (by decide)).1 "invalid syntax" 8080 rfl

/-- C6: `String(name, default)` is total: for every name, default and
environment it returns normally — the environment value when non-empty,
otherwise the default — and never parses, logs, panics or exits. -/
theorem c6_string_total (E : Env) (name v : String) :
    env.String E name v = .ok (if getenv E name ≠ "" then getenv E name else v) := by
  simp only [env.String]
  split <;> simp_all

/-- C4: for `Time` and `URL` a default string that fails to parse panics at
call time, for every environment — the default is parsed before the
environment is consulted — whereas a malformed environment value exits with
status 1; the `panicked` and `exited` outcomes are distinct, so the two
failure modes are distinguishable. -/
theorem c4_bad_default_panics {T U : Type}
    (pt : String → String → Except String T)
    (pu : String → Except String (Option U))
    (name format value e : String) :
    (pt format value = .error e →
        ∀ E : Env, env.Time E pt name format value = .panicked e)
    ∧ (pu value = .error e →
        ∀ E : Env, env.URL E pu name value = .panicked e)
    ∧ (∀ (ds : List Diag) (c : Nat), (Result.panicked e : Result T) ≠ .exited ds c)
    ∧ (∀ (ds : List Diag) (c : Nat),
        (Result.panicked e : Result (Option U)) ≠ .exited ds c) := by
  refine ⟨?_, ?_, ?_, ?_⟩
  · intro he E; simp [env.Time, he]
  · intro he E; simp [env.URL, he]
  · intro ds c h; cases h
  · intro ds c h; cases h

/-- Witness for C4: a failing default parser panics even when the
environment variable is set. -/
theorem c4_witness :
    env.Time (fun _ => some "2020") (fun _ _ => (.error "bad format" : Except String Nat))
      "T" "fmt" "dflt" = .panicked "bad format" :=
  (c4_bad_default_panics (fun _ _ => (.error "bad format" : Except String Nat))
    (fun _ => (.error "bad format" : Except String (Option Nat)))
    "T" "fmt" "dflt" "bad format").1 rfl (fun _ => some "2020")

/-- C7: every direct-lookup function is deterministic — two calls with the
same arguments under environments that agree on the looked-up variable (in
particular the same unchanged environment) return equal values. -/
theorem c7_deterministic (E E' : Env) (name : String) (h : E name = E' name) :
    (∀ v, env.Int E name v = env.Int E' name v)
    ∧ (∀ (pd : String → Except String GoDuration) v,
        env.Duration E pd name v = env.Duration E' pd name v)
    ∧ (∀ v, env.String E name v = env.String E' name v)
    ∧ (∀ (T : Type) (pt : String → String → Except String T) format value,
        env.Time E pt name format value = env.Time E' pt name format value)
    ∧ (∀ (U : Type) (pu : String → Except String (Option U)) value,
        env.URL E pu name value = env.URL E' pu name value) := by
  have hg : getenv E name = getenv E' name := by simp [getenv, h]
  refine ⟨?_, ?_, ?_, ?_, ?_⟩
  · intro v; simp [env.Int, hg]
  · intro pd v; simp [env.Duration, hg]
  · intro v; simp [env.String, hg]
  · intro T pt format value; simp [env.Time, hg]
  · intro U pu value; simp [env.URL, hg]

/-- Witness for C7 at two concrete environments agreeing on `PORT`. -/
theorem c7_witness :
    env.Int (fun n => if n = "PORT" then some "7" else none)
      "PORT" 0
      = env.Int (fun n => if n = "PORT" then some "7" else some "junk") "PORT" 0 :=
  (c7_deterministic (fun n => if n = "PORT" then some "7" else none)
    (fun n => if n = "PORT" then some "7" else some "junk") "PORT" rfl).1 0

/-- C8: no direct-lookup function mutates shared state — in the
state-passing embedding every call returns the process environment it
received unchanged, and its value component agrees with the pure
function (the functions only read the environment and register nothing). -/
theorem c8_no_shared_state_mutation (σ : Env) (name : String) :
    (∀ v, (env.IntS σ name v).2 = σ ∧ (env.IntS σ name v).1 = env.Int σ name v)
    ∧ (∀ (pd : String → Except String GoDuration) v,
        (env.DurationS σ pd name v).2 = σ
        ∧ (env.DurationS σ pd name v).1 = env.Duration σ pd name v)
    ∧ (∀ v, (env.StringS σ name v).2 = σ
        ∧ (env.StringS σ name v).1 = env.String σ name v)
    ∧ (∀ (T : Type) (pt : String → String → Except String T) format value,
        (env.TimeS σ pt name format value).2 = σ
        ∧ (env.TimeS σ pt name format value).1 = env.Time σ pt name format value)
    ∧ (∀ (U : Type) (pu : String → Except String (Option U)) value,
        (env.URLS σ pu name value).2 = σ
        ∧ (env.URLS σ pu name value).1 = env.URL σ pu name value) := by
  refine ⟨?_, ?_, ?_, ?_, ?_⟩
  · intro v
    simp only [env.IntS, env.Int]
    split
    · cases goAtoi (getenv σ name) <;> simp
    · simp
  · intro pd v
    simp only [env.DurationS, env.Duration]
    split
    · cases pd (getenv σ name) <;> simp
    · simp
  · intro v
    simp only [env.StringS, env.String]
    split <;> simp
  · intro T pt format value
    simp only [env.TimeS, env.Time]
    cases pt format value <;> simp
    split
    all_goals first
      | exact ⟨rfl, rfl⟩
      | (cases pt format (getenv σ name) <;> simp)
  · intro U pu value
    simp only [env.URLS, env.URL]
    cases pu value <;> simp
    split
    all_goals first
      | exact ⟨rfl, rfl⟩
      | (cases pu (getenv σ name) <;> simp)

/-- C10: whenever `URL` returns normally the returned pointer is non-nil:
both branches return the pointer of a successful `url.Parse`, and
`url.Parse` yields a non-nil pointer exactly when it succeeds (hypothesis
`hp`), so the success path never hands the caller a nil `*url.URL`. -/
theorem c10_url_success_nonnil {U : Type}
    (pu : String → Except String (Option U))
    (hp : ∀ s u, pu s = .ok u → u.isSome) :
    ∀ (E : Env) (name value : String) (r : Option U),
      env.URL E pu name value = .ok r → r.isSome := by
  intro E name value r hr
  unfold env.URL at hr
  cases hpv : pu value with
  | error e => rw [hpv] at hr; cases hr
  | ok v =>
    rw [hpv] at hr
    dsimp only at hr
    by_cases hc : getenv E name ≠ ""
    · rw [if_pos hc] at hr
      cases hps : pu (getenv E name) with
      | error e => rw [hps] at hr; cases hr
      | ok v2 =>
        rw [hps] at hr
        cases hr
        exact hp _ _ hps
    · rw [if_neg hc] at hr
      cases hr
      exact hp _ _ hpv

/-- Witness for C10 at a concrete parser whose successes are all non-nil. -/
theorem c10_witness :
    env.URL (fun _ => none) (fun s => Except.ok (some s)) "U" "http://x"
      = .ok (some "http://x")
    ∧ (some "http://x" : Option String).isSome := by
  refine ⟨rfl, ?_⟩
  exact c10_url_success_nonnil (fun s => Except.ok (some s))
    (fun s u hh => by cases hh; rfl) (fun _ => none) "U" "http://x"
    (some "http://x") rfl

theorem runResolver_fst (E : Env) (r : Reg) :
    (runResolver E r).1 = resolveCell E r := by
  cases r with
  | intReg name d =>
    simp only [runResolver, resolveCell]
    split
    all_goals first
      | rfl
      | (cases goAtoi (getenv E name) <;> rfl)
  | strReg name d =>
    simp only [runResolver, resolveCell]
    split <;> rfl

theorem runResolver_snd_isSome (E : Env) (r : Reg) :
    (runResolver E r).2.isSome = regInvalid E r := by
  cases r with
  | intReg name d =>
    simp only [runResolver, regInvalid]
    split
    all_goals first
      | rfl
      | (cases goAtoi (getenv E name) <;> rfl)
  | strReg name d =>
    simp only [runResolver, regInvalid]
    split <;> rfl

theorem parseCells_eq_resolve (E : Env) (regs : List Reg) :
    ParseCells E regs = regs.map (resolveCell E) := by
  induction regs with
  | nil => rfl
  | cons r rs ih =>
    simp only [ParseCells, List.map_cons] at ih ⊢
    rw [runResolver_fst, ih]

theorem parseDiags_length (E : Env) (regs : List Reg) :
    (ParseDiags E regs).length = regs.countP (fun r => regInvalid E r) := by
  induction regs with
  | nil => rfl
  | cons r rs ih =>
    have h := runResolver_snd_isSome E r
    rw [List.countP_cons]
    cases hs : (runResolver E r).2 with
    | none =>
      rw [hs] at h
      simp only [Option.isSome_none] at h
      simp only [ParseDiags, List.map_cons, List.filterMap_cons, hs]
      rw [← h]
      simpa [ParseDiags] using ih
    | some d =>
      rw [hs] at h
      simp only [Option.isSome_some] at h
      simp only [ParseDiags, List.map_cons, List.filterMap_cons, hs, List.length_cons]
      rw [← h]
      simpa [ParseDiags] using ih

/-- C5: in the deferred-registration component, `Parse` runs every resolver
exactly once in registration order with no short-circuiting (all cells are
resolved regardless of failures); with exactly K invalid environment values,
exactly K diagnostic lines are emitted and, when K ≥ 1, the process then
exits with status 1; when K = 0, `Parse` returns normally with every cell
holding its resolved value. -/
theorem c5_parse_aggregation (E : Env) (regs : List Reg) :
    (ParseDiags E regs).length = regs.countP (fun r => regInvalid E r)
    ∧ ParseCells E regs = regs.map (resolveCell E)
    ∧ (regs.countP (fun r => regInvalid E r) = 0 →
        env.Parse E regs = .ok (regs.map (resolveCell E)))
    ∧ (1 ≤ regs.countP (fun r => regInvalid E r) →
        env.Parse E regs = .exited (ParseDiags E regs) 1) := by
  refine ⟨parseDiags_length E regs, parseCells_eq_resolve E regs, ?_, ?_⟩
  · intro hk
    have hlen : (ParseDiags E regs).length = 0 := by
      rw [parseDiags_length E regs, hk]
    have hnil : ParseDiags E regs = [] := List.eq_nil_of_length_eq_zero hlen
    simp [env.Parse, hnil, parseCells_eq_resolve E regs]
  · intro hk
    have hne : ParseDiags E regs ≠ [] := by
      intro hnil
      have hlen := parseDiags_length E regs
      rw [hnil] at hlen
      simp only [List.length_nil] at hlen
      omega
    simp [env.Parse, hne]

/-- Witness for C5 (the spec's scenario E): registrations `Int("A", 1)` and
`Int("B", 2)` under `A="bad"`, `B` unset — exactly one diagnostic naming
`A`, exit with status 1, and the cell for `B` still resolved to 2. -/
theorem c5_witness :
    env.Parse (fun n => if n = "A" then some "bad" else none)
        [Reg.intReg "A" 1, Reg.intReg "B" 2]
      = .exited [⟨"A", "invalid syntax"⟩] 1
    ∧ ParseCells (fun n => if n = "A" then some "bad" else none)
        [Reg.intReg "A" 1, Reg.intReg "B" 2]
      = [CellVal.intVal 1, CellVal.intVal 2] := by
  constructor
  · have h := (c5_parse_aggregation (fun n => if n = "A" then some "bad" else none)
      [Reg.intReg "A" 1, Reg.intReg "B" 2]).2.2.2 (by decide)
    rw [h]
    decide
  · decide

theorem goAtoi_eq_of_signedDecimal (s : String) :
    goAtoi s =
      match signedDecimal s with
      | some k =>
        if -(2 ^ 63) ≤ k ∧ k ≤ 2 ^ 63 - 1 then .ok k
        else .error "value out of range"
      | none => .error "invalid syntax" := by
  unfold goAtoi signedDecimal
  cases hd : s.data with
  | nil => rfl
  | cons c cs =>
    dsimp only
    by_cases hsign : c = '+' ∨ c = '-'
    · simp only [if_pos hsign]
      by_cases hnil : cs = []
      · simp [hnil]
      · by_cases hdig : cs.all Char.isDigit
        · simp [hnil, hdig]
        · simp [hnil, hdig]
    · simp only [if_neg hsign]
      have hcm : c ≠ '-' := fun hc => hsign (Or.inr hc)
      by_cases hdig : (c :: cs).all Char.isDigit
      · simp [hdig, hcm]
      · simp [hdig]

/-- C9 (amended): `Int` accepts exactly base-10, optionally signed integer
strings whose value fits the signed 64-bit `int`: an environment value that
is an optional leading `+` or `-` followed by decimal digits, denoting a
value within the 64-bit range, yields that signed integer; any other form
(non-decimal bases, surrounding whitespace, non-digit characters), or an
in-syntax value outside the 64-bit range, is a parse error that logs the
variable name and exits with status 1. -/
theorem c9_amended_int_accepts_signed_decimal (E : Env) (name s : String)
    (hs : getenv E name = s) (hne : s ≠ "") (v : GoInt) :
    env.Int E name v =
      match signedDecimal s with
      | some k =>
        if -(2 ^ 63) ≤ k ∧ k ≤ 2 ^ 63 - 1 then .ok k
        else .exited [⟨name, "value out of range"⟩] 1
      | none => .exited [⟨name, "invalid syntax"⟩] 1 := by
  have hg := goAtoi_eq_of_signedDecimal s
  cases hsd : signedDecimal s with
  | none =>
    rw [hsd] at hg
    simp [env.Int, hs, hne, hg]
  | some k =>
    rw [hsd] at hg
    dsimp only at hg
    norm_num at hg
    by_cases hr : -(9223372036854775808 : Int) ≤ k ∧ k ≤ 9223372036854775807
    · rw [if_pos hr] at hg
      simp [env.Int, hs, hne, hg, hr]
    · rw [if_neg hr] at hg
      simp [env.Int, hs, hne, hg, hr]

/-- C9 counterexample: `PORT="+9223372036854775808"` is an explicit `+` sign
followed by decimal digits, yet `Int("PORT", 0)` does not return the signed
integer 9223372036854775808 — `strconv.Atoi` reports a range error (the
value exceeds the 64-bit `int`) and the call logs and exits with status 1. -/
theorem c9_counterexample :
    signedDecimal "+9223372036854775808" = some 9223372036854775808
    ∧ env.Int (fun n => if n = "PORT" then some "+9223372036854775808" else none)
        "PORT" 0 = .exited [⟨"PORT", "value out of range"⟩] 1
    ∧ env.Int (fun n => if n = "PORT" then some "+9223372036854775808" else none)
        "PORT" 0 ≠ .ok 9223372036854775808 := by
  refine ⟨?_, ?_, ?_⟩ <;> decide

/-- Witness for the amended C9 at `PORT="-42"`. -/
theorem c9_witness :
    env.Int (fun n => if n = "PORT" then some "-42" else none) "PORT" 0
      = .ok (-42) :=
  (c9_amended_int_accepts_signed_decimal
    (fun n => if n = "PORT" then some "-42" else none)
    "PORT" "-42" rfl (by decide) 0).trans (by decide)
